import Mathlib

/-!
Verification development for the `fashion_recommenders` repository.

Part 1 embeds the Gradio demo helpers of
`src/fashion_recommenders/utils/demo.py` (outfit manager, pagination and
the button handlers).  Part 2 embeds the CSA-Net model of
`deepfashion/models/csa_net.py` (category-conditioned subspace attention,
triplet training loop and fill-in-the-blank evaluation loop).

Python images, descriptions and categories are opaque values and are
modelled as natural numbers.  Fallible Python operations (list indexing,
`numpy.argmin` on an empty array, division by zero, reading an unassigned
local variable) are returned through `Option` / `Except`.
-/

/-! ## Part 1: the demo data model (`src/fashion_recommenders/utils/demo.py`) -/

/-- An element of the demo database / outfit, `elements.Item`.
Only the fields used by `demo.py` are modelled. -/
structure Item where
  image : Nat
  description : Nat
  category : Option Nat
deriving DecidableEq

/-- The `OutfitManager` state: the list `self.items`. -/
structure OutfitManager where
  items : List Item
deriving DecidableEq

/-- `OutfitManager.image_preview`: `None` when `self.items` is empty
(the Python truthiness test `if self.items else None`), otherwise the
list of the items' images in insertion order. -/
def OutfitManager.image_preview (m : OutfitManager) : Option (List Nat) :=
  if m.items.isEmpty then none else some (m.items.map (fun it => it.image))

/-- `OutfitManager.add`: appends a new item and returns the new state
together with the returned preview. -/
def OutfitManager.add (m : OutfitManager) (image description : Nat) (category : Option Nat) :
    OutfitManager × Option (List Nat) :=
  let m2 : OutfitManager := ⟨m.items ++ [⟨image, description, category⟩]⟩
  (m2, m2.image_preview)

/-- A Python value passed as the `idx` argument of `OutfitManager.delete`.
The gradio state holding the selected index starts as `None`, so the
argument is any Python object; only `isinstance(idx, int)` matters. -/
inductive PyVal where
  | pyInt : Int → PyVal
  | pyNone : PyVal
  | pyStr : Nat → PyVal
deriving DecidableEq

/-- `isinstance(idx, int)`. -/
def isInstanceInt : PyVal → Bool
  | .pyInt _ => true
  | _ => false

/-- `OutfitManager.delete`: pops index `idx` only when
`isinstance(idx, int) and (0 <= idx < len(self.items))`; always returns
the (new) state with the preview of that state. -/
def OutfitManager.delete (m : OutfitManager) (idx : PyVal) : OutfitManager × Option (List Nat) :=
  let m2 : OutfitManager :=
    match idx with
    | .pyInt n => if 0 ≤ n ∧ n < (m.items.length : Int) then ⟨m.items.eraseIdx n.toNat⟩ else m
    | _ => m
  (m2, m2.image_preview)

/-- `OutfitManager.clear`: resets `self.items` to `[]` and returns the
preview of the cleared state. -/
def OutfitManager.clear (_m : OutfitManager) : OutfitManager × Option (List Nat) :=
  let m2 : OutfitManager := ⟨[]⟩
  (m2, m2.image_preview)

/-- `elements.Outfit`: a list of items. -/
structure Outfit where
  items : List Item
deriving DecidableEq

/-- `elements.Query`: a query string (opaque, modelled as `Nat`) plus the
current outfit items. -/
structure Query where
  query : Nat
  items : List Item
deriving DecidableEq

/-- The constant `ITEM_PER_PAGE` of `demo.py`. -/
def ITEM_PER_PAGE : Nat := 12

/-- The item loader of a pipeline (`pipeline.loader`): `paginate_items`
takes `(page, item_per_page, category)` and `total_pages` takes
`(item_per_page, category)`.  The loader itself lives outside the given
sources, so it is kept abstract. -/
structure Loader where
  paginate_items : Nat → Nat → Nat → List Item
  total_pages : Nat → Nat → Nat

/-- The `DBBuffer` state holding the currently displayed candidates. -/
structure DBBuffer where
  items : List Item
deriving DecidableEq

/-- The `update_db_candidates_gallery_category` handler: loads page 1
with `ITEM_PER_PAGE` items of the newly selected category, and returns
(new buffer, gallery images, page choices `1..total_pages`, page value 1). -/
def update_db_candidates_gallery_category (loader : Loader) (selected_category : Nat) :
    DBBuffer × List Nat × List Nat × Nat :=
  let items := loader.paginate_items 1 ITEM_PER_PAGE selected_category
  let total := loader.total_pages ITEM_PER_PAGE selected_category
  (⟨items⟩, items.map (fun it => it.image), (List.range total).map (fun i => i + 1), 1)

/-- The `update_db_candidates_gallery_by_page` handler: loads the selected
page with `ITEM_PER_PAGE` items and returns (new buffer, gallery images). -/
def update_db_candidates_gallery_by_page (loader : Loader) (selected_page selected_category : Nat) :
    DBBuffer × List Nat :=
  let items := loader.paginate_items selected_page ITEM_PER_PAGE selected_category
  (⟨items⟩, items.map (fun it => it.image))

/-- The outfits argument built by the `predict` click handler of the
'cp' task: `[elements.Outfit(items=manager.items)]`. -/
def demoPredictOutfits (m : OutfitManager) : List Outfit := [⟨m.items⟩]

/-- The `predict` click handler: `pipeline.predict(outfits=...)[0]`.
`pipeline.predict` is outside the given sources and is abstract; Python
`[0]` on an empty result raises, hence `Option`. -/
def demoPredict {α : Type} (predictFn : List Outfit → List α) (m : OutfitManager) : Option α :=
  (predictFn (demoPredictOutfits m)).get? 0

/-- The queries argument built by the `search` click handler of the 'cir'
task: `[elements.Query(query=query, items=manager.items)]`. -/
def searchQueries (m : OutfitManager) (q : Nat) : List Query := [⟨q, m.items⟩]

/-- The `search` click handler: `pipeline.search(queries=..., k=ITEM_PER_PAGE)[0]`
followed by `[item.image for item in items]`. -/
def searchHandler (searchFn : List Query → Nat → List (List Item)) (m : OutfitManager) (q : Nat) :
    Option (List Nat) :=
  ((searchFn (searchQueries m q) ITEM_PER_PAGE).get? 0).map (fun items => items.map (fun it => it.image))

/-- Which base class the `pipeline` argument of `demo()` is an instance
of: `BaseCPPipeline`, `BaseCIRPipeline`, or neither. -/
inductive PipelineKind where
  | cp
  | cir
  | other
deriving DecidableEq

/-- The local variable `task` of `demo()` after the two `isinstance`
tests: assigned `'cp'` (code 0) or `'cir'` (code 1), or left unassigned
(`none`) when the pipeline is an instance of neither base class. -/
def taskOf : PipelineKind → Option Nat
  | .cp => some 0
  | .cir => some 1
  | .other => none

/-- A Python runtime error raised while building the demo. -/
inductive PyError where
  | nameError
deriving DecidableEq

/-- The task-specific section of the demo interface built after the
shared components. -/
inductive TaskSection where
  | cpSection
  | cirSection
deriving DecidableEq

/-- `demo()` after the shared components: evaluating `if task == 'cp'`
reads the local `task`, which raises `NameError` when it was never
assigned; otherwise the matching task section is built and launched. -/
def demoBuild (k : PipelineKind) : Except PyError TaskSection :=
  match taskOf k with
  | none => .error .nameError
  | some t => .ok (if t = 0 then .cpSection else .cirSection)

/-! ### Claims C6-C10 -/

/-- Claim C6: in the 'cp' task, the Evaluate button calls
`pipeline.predict` on exactly one `Outfit` consisting of the manager's
current items, and displays the first element of the returned scores. -/
theorem demo_predict_single_outfit {α : Type} (predictFn : List Outfit → List α)
    (m : OutfitManager) :
    (demoPredictOutfits m).length = 1 ∧
    demoPredictOutfits m = [Outfit.mk m.items] ∧
    demoPredict predictFn m = (predictFn [Outfit.mk m.items]).get? 0 :=
  ⟨rfl, rfl, rfl⟩

/-- Claim C7: the 'cir' search handler requests exactly
`k = ITEM_PER_PAGE = 12` results for a single query built from the current
outfit items and returns their images; the candidate-gallery pagination
always requests pages of exactly 12 items and resets the page value to 1
when the category changes. -/
theorem demo_search_and_pagination (loader : Loader)
    (searchFn : List Query → Nat → List (List Item)) (m : OutfitManager)
    (q page cat : Nat) :
    ITEM_PER_PAGE = 12 ∧
    searchQueries m q = [Query.mk q m.items] ∧
    searchHandler searchFn m q =
      ((searchFn [Query.mk q m.items] 12).get? 0).map (fun items => items.map (fun it => it.image)) ∧
    (update_db_candidates_gallery_category loader cat).1.items =
      loader.paginate_items 1 12 cat ∧
    (update_db_candidates_gallery_category loader cat).2.2.2 = 1 ∧
    (update_db_candidates_gallery_by_page loader page cat).1.items =
      loader.paginate_items page 12 cat :=
  ⟨rfl, rfl, rfl, rfl, rfl, rfl⟩

/-- Claim C8: `OutfitManager.delete` is a guarded no-op: a non-int index
or an out-of-range int leaves the items unchanged; an in-range int removes
exactly the item at that index keeping the order of the rest; in both
cases the returned preview is the preview of the resulting state. -/
theorem delete_guarded (m : OutfitManager) (idx : PyVal) :
    (isInstanceInt idx = false → (m.delete idx).1 = m) ∧
    (∀ n : Int, idx = .pyInt n → (n < 0 ∨ (m.items.length : Int) ≤ n) → (m.delete idx).1 = m) ∧
    (∀ n : Nat, idx = .pyInt n → n < m.items.length →
      (m.delete idx).1.items = m.items.take n ++ m.items.drop (n + 1)) ∧
    (m.delete idx).2 = (m.delete idx).1.image_preview := by
  refine ⟨?_, ?_, ?_, rfl⟩
  · intro h
    cases idx with
    | pyInt n => simp [isInstanceInt] at h
    | pyNone => rfl
    | pyStr s => rfl
  · intro n hidx hout
    subst hidx
    simp only [OutfitManager.delete]
    rw [if_neg]
    rintro ⟨h0, hlt⟩
    rcases hout with h | h
    · omega
    · omega
  · intro n hidx hlt
    subst hidx
    simp only [OutfitManager.delete]
    rw [if_pos ⟨Int.ofNat_nonneg n, by exact_mod_cast hlt⟩]
    simp [List.eraseIdx_eq_take_drop_succ]

/-- Witness for C8 at concrete inputs: deleting with the initial `None`
selection is a no-op, an out-of-range int is a no-op, and deleting index 1
of a three-item outfit keeps items 0 and 2 in order. -/
theorem delete_guarded_witness :
    ((OutfitManager.mk [⟨1, 1, none⟩, ⟨2, 2, none⟩, ⟨3, 3, none⟩]).delete .pyNone).1 =
      OutfitManager.mk [⟨1, 1, none⟩, ⟨2, 2, none⟩, ⟨3, 3, none⟩] ∧
    ((OutfitManager.mk [⟨1, 1, none⟩, ⟨2, 2, none⟩, ⟨3, 3, none⟩]).delete (.pyInt 5)).1 =
      OutfitManager.mk [⟨1, 1, none⟩, ⟨2, 2, none⟩, ⟨3, 3, none⟩] ∧
    ((OutfitManager.mk [⟨1, 1, none⟩, ⟨2, 2, none⟩, ⟨3, 3, none⟩]).delete (.pyInt 1)).1.items =
      [⟨1, 1, none⟩, ⟨3, 3, none⟩] := by
  refine ⟨?_, ?_, ?_⟩
  · exact (delete_guarded (OutfitManager.mk [⟨1, 1, none⟩, ⟨2, 2, none⟩, ⟨3, 3, none⟩])
      .pyNone).1 (by decide)
  · exact (delete_guarded (OutfitManager.mk [⟨1, 1, none⟩, ⟨2, 2, none⟩, ⟨3, 3, none⟩])
      (.pyInt 5)).2.1 5 rfl (by decide)
  · exact (delete_guarded (OutfitManager.mk [⟨1, 1, none⟩, ⟨2, 2, none⟩, ⟨3, 3, none⟩])
      (.pyInt 1)).2.2.1 1 rfl (by decide)

/-- Claim C9: `image_preview` returns `None` (not an empty list) exactly
when the item list is empty and otherwise the images in insertion order;
consequently `clear` always returns `None`. -/
theorem preview_none_iff_empty (m : OutfitManager) :
    (m.items = [] → m.image_preview = none) ∧
    (m.items ≠ [] → m.image_preview = some (m.items.map (fun it => it.image))) ∧
    m.clear.2 = none := by
  refine ⟨?_, ?_, rfl⟩
  · intro h
    simp [OutfitManager.image_preview, h]
  · intro h
    simp [OutfitManager.image_preview, h]

/-- Witness for C9 at concrete inputs. -/
theorem preview_none_iff_empty_witness :
    (OutfitManager.mk []).image_preview = none ∧
    (OutfitManager.mk [⟨7, 0, none⟩]).image_preview = some [7] := by
  constructor
  · exact (preview_none_iff_empty (OutfitManager.mk [])).1 rfl
  · exact (preview_none_iff_empty (OutfitManager.mk [⟨7, 0, none⟩])).2.1 (by decide)

/-- Claim C10: for a pipeline that is an instance of neither
`BaseCPPipeline` nor `BaseCIRPipeline`, the local `task` is never
assigned, so `demo()` raises `NameError` when it later tests the task
kind, and no task interface is built. -/
theorem demo_unknown_pipeline_name_error (k : PipelineKind)
    (hcp : k ≠ .cp) (hcir : k ≠ .cir) :
    demoBuild k = .error .nameError := by
  cases k with
  | cp => exact absurd rfl hcp
  | cir => exact absurd rfl hcir
  | other => rfl

/-- Witness for C10 at the concrete unknown-pipeline input. -/
theorem demo_unknown_pipeline_name_error_witness :
    demoBuild .other = .error .nameError :=
  demo_unknown_pipeline_name_error .other (by decide) (by decide)

/-! ## Part 2: the CSA-Net model (`deepfashion/models/csa_net.py`)

Tensors of floats are modelled as (nested) lists of exact reals, images
by opaque natural-number ids.  The image encoder
(`deepfashion/models/encoder/builder.py`) and the stacking utilities
(`deepfashion/utils/dataset_utils.py`) are not part of the given sources;
the encoder is an abstract per-image function, and (modelled from the
spec's "masked variable-length outfit handling") stacking/unstacking is
modelled as per-position computation that places zero vectors at
positions whose `input_mask` is `True`. -/

noncomputable section

/-- A float vector. -/
abbrev Vec := List ℝ

/-- Dot product of two vectors. -/
def dotV (x y : Vec) : ℝ := (List.zipWith (fun a b => a * b) x y).sum

/-- Elementwise sum. -/
def addV (x y : Vec) : Vec := List.zipWith (fun a b => a + b) x y

/-- Elementwise (Hadamard) product, `embed * mask`. -/
def mulV (x y : Vec) : Vec := List.zipWith (fun a b => a * b) x y

/-- Scalar multiple of a vector. -/
def smulV (a : ℝ) (x : Vec) : Vec := x.map (fun b => a * b)

/-- `nn.ReLU` applied elementwise. -/
def reluV (x : Vec) : Vec := x.map (fun a => max a 0)

/-- The zero vector of dimension `d`. -/
def zeroV (d : Nat) : Vec := List.replicate d 0

/-- Matrix-vector product, rows times vector. -/
def matVec (W : List Vec) (x : Vec) : Vec := W.map (fun row => dotV row x)

/-- The transpose of a matrix with `d` columns (`self.mask.T`). -/
def matTranspose (d : Nat) (W : List Vec) : List Vec :=
  (List.range d).map (fun j => W.map (fun row => row.getD j 0))

/-- `nn.Linear`: `W x + b`. -/
def linearLayer (W : List Vec) (b : Vec) (x : Vec) : Vec := addV (matVec W x) b

/-- `F.softmax` along the last dimension. -/
def softmax (z : Vec) : Vec := z.map (fun a => Real.exp a / (z.map Real.exp).sum)

/-- `F.one_hot(x, num_classes=n)` as a float vector. -/
def oneHot (n i : Nat) : Vec := (List.range n).map (fun j => if j = i then (1 : ℝ) else 0)

/-- The learned state of `CSANet`: dimensions, the abstract image encoder,
the per-category subspace masks `self.mask` (shape `num_category ×
embedding_dim`), and the weights of the two `nn.Linear` layers of
`self.attention`. -/
structure Model where
  embedding_dim : Nat
  num_category : Nat
  img_encoder : Nat → Vec
  mask : List Vec
  attnW1 : List Vec
  attnB1 : Vec
  attnW2 : List Vec
  attnB2 : Vec

/-- The attention weights of `_get_embedding` for one item:
`F.softmax(self.attention(concat(one_hot(input_category), one_hot(target_category))))`. -/
def Model.attention (M : Model) (input_category target_category : Nat) : Vec :=
  softmax (linearLayer M.attnW2 M.attnB2 (reluV (linearLayer M.attnW1 M.attnB1
    (oneHot M.num_category input_category ++ oneHot M.num_category target_category))))

/-- The subspace mask of `_get_embedding` for one item:
`torch.matmul(self.mask.T.unsqueeze(0), attention.unsqueeze(2)).squeeze(2)`. -/
def Model.subspaceMask (M : Model) (input_category target_category : Nat) : Vec :=
  matVec (matTranspose M.embedding_dim M.mask) (M.attention input_category target_category)

/-- `_get_embedding` for a single item: the encoder embedding multiplied
elementwise by the subspace mask. -/
def Model.getEmbedding (M : Model) (img input_category target_category : Nat) : Vec :=
  mulV (M.img_encoder img) (M.subspaceMask input_category target_category)

/-- One side of a batch: a dict of tensors of shape `(B, max_len, ...)`
with images as ids, integer categories, and the padding mask
(`input_mask[b][j] = True` means position `j` of outfit `b` is padding). -/
structure Inputs where
  img : List (List Nat)
  category : List (List Nat)
  input_mask : List (List Bool)
deriving DecidableEq

/-- Modelled from the spec: the nested embedding of one outfit for a
single target category; `stack`/`unstack` of `dataset_utils` is modelled
as per-position computation, with the zero vector at masked positions
(which is what `unstack_tensors` writes there). -/
def embedOutfit (M : Model) (imgs cats : List Nat) (mask : List Bool) (tc : Nat) : List Vec :=
  (List.range mask.length).map (fun j =>
    if mask.getD j true then zeroV M.embedding_dim
    else M.getEmbedding (imgs.getD j 0) (cats.getD j 0) tc)

/-- `_get_embedding` on a whole batch side for one constant target
category, already unstacked to shape `(B, max_len, D)`. -/
def embedInputs (M : Model) (p : Inputs) (tc : Nat) : List (List Vec) :=
  (List.range p.input_mask.length).map (fun b =>
    embedOutfit M (p.img.getD b []) (p.category.getD b []) (p.input_mask.getD b []) tc)

/-- Like `embedOutfit` but with one target category per item, as in
`forward` when `target_category` is given. -/
def embedOutfitT (M : Model) (imgs cats : List Nat) (mask : List Bool) (tcs : List Nat) : List Vec :=
  (List.range mask.length).map (fun j =>
    if mask.getD j true then zeroV M.embedding_dim
    else M.getEmbedding (imgs.getD j 0) (cats.getD j 0) (tcs.getD j 0))

/-- `forward` with `target_category` given: the `img_embed` output of
shape `(B, max_len, D)`. -/
def Model.forwardT (M : Model) (p : Inputs) (tcs : List (List Nat)) : List (List Vec) :=
  (List.range p.input_mask.length).map (fun b =>
    embedOutfitT M (p.img.getD b []) (p.category.getD b []) (p.input_mask.getD b []) (tcs.getD b []))

/-- `forward` with `target_category=None`: the `img_embed` output, a
stack of `num_category` per-target-category embedding tensors of shape
`(num_category, B, max_len, D)`. -/
def Model.forwardAll (M : Model) (p : Inputs) : List (List (List Vec)) :=
  (List.range M.num_category).map (fun i => embedInputs M p i)

/-- `torch.sum(~mask)`: the number of unmasked positions. -/
def cntUnmasked (mask : List Bool) : Nat := mask.count false

/-- `nn.PairwiseDistance(p=2)` on two vectors (the numerical-stability
`eps` of the float implementation is idealised away). -/
def pairwiseDistance (x y : Vec) : ℝ :=
  Real.sqrt ((List.zipWith (fun a b => (a - b) ^ 2) x y).sum)

/-- `nn.TripletMarginLoss(margin=0.3, reduction='mean')` on a single
triplet of vectors. -/
def tripletMarginLoss (a p n : Vec) : ℝ :=
  max (pairwiseDistance a p - pairwiseDistance a n + 0.3) 0

/-- The minimum of a list of reals (of a nonempty list, head-first). -/
def listMin : List ℝ → ℝ
  | [] => 0
  | [x] => x
  | x :: y :: t => min x (listMin (y :: t))

/-- `np.argmin`: the first index attaining the minimum. -/
def argminIdx : List ℝ → Nat
  | [] => 0
  | [_] => 0
  | x :: y :: t => if x ≤ listMin (y :: t) then 0 else argminIdx (y :: t) + 1

/-- Runs a fallible body over a list, collecting the results; `none` as
soon as the body fails (a Python loop that can raise). -/
def optList {α β : Type} : List α → (α → Option β) → Option (List β)
  | [], _ => some []
  | a :: as, f =>
    match f a, optList as f with
    | some b, some bs => some (b :: bs)
    | _, _ => none

/-- Python indexing `xs[i][j]` on a nested list, `None` on `IndexError`. -/
def get2 {α : Type} (xs : List (List α)) (i j : Nat) : Option α :=
  (xs.get? i).bind (fun r => r.get? j)

/-- Python indexing `xs[i][j][k]`, `None` on `IndexError`. -/
def get3 {α : Type} (xs : List (List (List α))) (i j k : Nat) : Option α :=
  ((xs.get? i).bind (fun r => r.get? j)).bind (fun r => r.get? k)

/-- One batch of the fill-in-the-blank dataloader: the Python dict
`{'questions': ..., 'candidates': ...}` of two batch sides. -/
structure FitbBatch where
  questions : Inputs
  candidates : Inputs
deriving DecidableEq

/-- `len(batch)` in `CSANet.evaluation`: `batch` is the Python dict with
the two keys `'questions'` and `'candidates'`, so its `len` is 2 —
not the batch size. -/
def batchPyLen : Nat := 2

/-- The body of the `batch_i` loop of `CSANet.evaluation`: the summed
pairwise distances of every candidate to the question items, and
`np.argmin` of those distances (which raises on an empty array). -/
def evalAnswer (M : Model) (b : FitbBatch) (bi : Nat) : Option Nat :=
  (b.candidates.input_mask.get? bi).bind (fun cMask =>
  (b.questions.input_mask.get? bi).bind (fun qMask =>
  (optList (List.range (cntUnmasked cMask)) (fun ci =>
    (optList (List.range (cntUnmasked qMask)) (fun qi =>
      (get2 b.questions.category bi qi).bind (fun qCat =>
      (get2 b.candidates.category bi ci).bind (fun cCat =>
      (get3 (M.forwardAll b.questions) cCat bi qi).bind (fun q =>
      (get3 (M.forwardAll b.candidates) qCat bi ci).bind (fun c =>
      some (pairwiseDistance q c))))))).map (fun scores => scores.sum))).bind (fun dists =>
  if dists.isEmpty then none else some (argminIdx dists))))

/-- The per-batch answers of `CSANet.evaluation`: the `batch_i` loop runs
over `range(len(batch))`, i.e. over the first `batchPyLen = 2` outfits. -/
def evaluationAnswers (M : Model) (b : FitbBatch) : Option (List Nat) :=
  optList (List.range batchPyLen) (evalAnswer M b)

/-- `CSANet.evaluation`: the fraction of processed questions whose
predicted candidate index is 0 (float division `correct / total`, which
raises on an empty dataloader). -/
def evaluation (M : Model) (dl : List FitbBatch) : Option ℝ :=
  (optList dl (evaluationAnswers M)).bind (fun ansLists =>
    let ans := ansLists.flatten
    if ans.length = 0 then none
    else some ((ans.countP (fun a => a == 0) : ℝ) / (ans.length : ℝ)))

/-- Modelled from the spec: the per-batch answers as the claim reads
them — one prediction for *every* outfit question of the batch, the
`batch_i` loop running over the batch size instead of `len(batch)`. -/
def specEvaluationAnswers (M : Model) (b : FitbBatch) : Option (List Nat) :=
  optList (List.range b.questions.input_mask.length) (evalAnswer M b)

/-- Modelled from the spec: fill-in-the-blank accuracy over every
question of every batch. -/
def specEvaluation (M : Model) (dl : List FitbBatch) : Option ℝ :=
  (optList dl (specEvaluationAnswers M)).bind (fun ansLists =>
    let ans := ansLists.flatten
    if ans.length = 0 then none
    else some ((ans.countP (fun a => a == 0) : ℝ) / (ans.length : ℝ)))

/-- One batch of the triplet dataloader: anchors, positives, negatives. -/
structure TripletBatch where
  anchors : Inputs
  positives : Inputs
  negatives : Inputs
deriving DecidableEq

/-- The `running_loss` list of one batch of `CSANet.iteration`: the
triplet losses for every `(b_i, a_i, n_i)` with `a_i`, `n_i` ranging over
the unmasked counts, anchor embedded under the positive's category
(position 0), positive and negative under the anchor's category. -/
def iterBatchLosses (M : Model) (b : TripletBatch) : Option (List ℝ) :=
  (optList (List.range b.anchors.input_mask.length) (fun bi =>
    (b.anchors.input_mask.get? bi).bind (fun aMask =>
    (b.negatives.input_mask.get? bi).bind (fun nMask =>
    optList (List.range (cntUnmasked aMask)) (fun ai =>
      optList (List.range (cntUnmasked nMask)) (fun ni =>
        (get2 b.anchors.category bi ai).bind (fun ancCat =>
        (get2 b.positives.category bi 0).bind (fun posCat =>
        (get3 (M.forwardAll b.anchors) posCat bi ai).bind (fun ancE =>
        (get3 (M.forwardAll b.positives) ancCat bi 0).bind (fun posE =>
        (get3 (M.forwardAll b.negatives) ancCat bi ni).bind (fun negE =>
        some (tripletMarginLoss ancE posE negE)))))))))))).map
    (fun ls => (ls.map List.flatten).flatten)

/-- The mean of a list of reals. -/
def meanR (l : List ℝ) : ℝ := l.sum / (l.length : ℝ)

/-- `running_loss = torch.mean(torch.stack(running_loss))` for one batch
(`torch.stack` raises on an empty list). -/
def iterBatchLoss (M : Model) (b : TripletBatch) : Option ℝ :=
  (iterBatchLosses M b).bind (fun ls => if ls.isEmpty then none else some (meanR ls))

/-- `CSANet.iteration`: the sum of per-batch losses divided by the final
loop counter `iter` (= the number of batches; `iter` is unassigned on an
empty dataloader). -/
def iteration (M : Model) (dl : List TripletBatch) : Option ℝ :=
  (optList dl (iterBatchLoss M)).bind (fun ls =>
    if dl.isEmpty then none else some (ls.sum / (dl.length : ℝ)))

/-! ### List and vector helper lemmas -/

theorem get?_eq_some_getD {α : Type} (l : List α) (i : Nat) (d : α) (h : i < l.length) :
    l.get? i = some (l.getD i d) := by
  rw [List.get?_eq_get h, List.getD_eq_get l d h]

theorem getD_map_lt {α β : Type} (l : List α) (f : α → β) (i : Nat) (d : β) (d' : α)
    (h : i < l.length) : (l.map f).getD i d = f (l.getD i d') := by
  rw [List.getD_eq_getElem (l.map f) d (by simpa using h), List.getD_eq_getElem l d' h]
  simp

theorem optList_eq_map {α β : Type} (l : List α) (f : α → Option β) (g : α → β)
    (h : ∀ a ∈ l, f a = some (g a)) : optList l f = some (l.map g) := by
  induction l with
  | nil => rfl
  | cons a as ih =>
    have ha := h a (List.mem_cons_self a as)
    have has := ih (fun x hx => h x (List.mem_cons_of_mem a hx))
    simp [optList, ha, has]

theorem optList_congr {α β : Type} (l : List α) (f g : α → Option β)
    (h : ∀ a ∈ l, f a = g a) : optList l f = optList l g := by
  induction l with
  | nil => rfl
  | cons a as ih =>
    have ha := h a (List.mem_cons_self a as)
    have has := ih (fun x hx => h x (List.mem_cons_of_mem a hx))
    simp [optList, ha, has]

theorem dotV_cons (a b : ℝ) (as bs : List ℝ) :
    dotV (a :: as) (b :: bs) = a * b + dotV as bs := by
  simp [dotV]

theorem list_eq_range_map_getD {α : Type} (l : List α) (d : α) :
    l = (List.range l.length).map (fun i => l.getD i d) := by
  apply List.ext_getElem
  · simp
  · intro i h1 h2
    simp only [List.getElem_map, List.getElem_range]
    exact (List.getD_eq_getElem l d h1).symm

theorem matVec_transpose_expand (rows : List Vec) (ws : Vec) (d : Nat) :
    matVec (matTranspose d rows) ws =
      (List.range d).map (fun j => dotV (rows.map (fun row => row.getD j 0)) ws) := by
  unfold matVec matTranspose
  rw [List.map_map]
  rfl

theorem smulV_eq_range (w : ℝ) (r : Vec) (d : Nat) (hr : r.length = d) :
    smulV w r = (List.range d).map (fun j => w * r.getD j 0) := by
  unfold smulV
  conv_lhs => rw [list_eq_range_map_getD r 0]
  rw [List.map_map, hr]
  rfl

theorem addV_range_map (f g : Nat → ℝ) (d : Nat) :
    addV ((List.range d).map f) ((List.range d).map g) =
      (List.range d).map (fun j => f j + g j) := by
  unfold addV
  rw [List.zipWith_map_left, List.zipWith_map_right, List.zipWith_same]

/-- The attention-weighted sum of the per-category mask vectors (the
claim's reading of the subspace-mask computation). -/
def weightedMaskSum (ws : List ℝ) (rows : List Vec) (d : Nat) : Vec :=
  (List.zipWith smulV ws rows).foldr addV (zeroV d)

theorem matVec_transpose (rows : List Vec) (ws : List ℝ) (d : Nat)
    (hrows : ∀ r ∈ rows, r.length = d) :
    matVec (matTranspose d rows) ws = weightedMaskSum ws rows d := by
  induction rows generalizing ws with
  | nil =>
    rw [matVec_transpose_expand]
    simp [weightedMaskSum, zeroV, dotV, List.map_const']
  | cons r rs ih =>
    cases ws with
    | nil =>
      rw [matVec_transpose_expand]
      simp [weightedMaskSum, zeroV, dotV, List.map_const']
    | cons w ws' =>
      have hr : r.length = d := hrows r (List.mem_cons_self r rs)
      have hrs : ∀ x ∈ rs, x.length = d := fun x hx => hrows x (List.mem_cons_of_mem r hx)
      have key : matVec (matTranspose d (r :: rs)) (w :: ws') =
          addV (smulV w r) (matVec (matTranspose d rs) ws') := by
        rw [matVec_transpose_expand (r :: rs) (w :: ws') d, matVec_transpose_expand rs ws' d,
          smulV_eq_range w r d hr, addV_range_map]
        apply List.map_congr_left
        intro j _
        rw [List.map_cons, dotV_cons]
        ring
      rw [key, ih ws' hrs]
      rfl

theorem sum_map_div_right (l : List ℝ) (f : ℝ → ℝ) (S : ℝ) :
    (l.map (fun a => f a / S)).sum = (l.map f).sum / S := by
  induction l with
  | nil => simp
  | cons a t ih => simp [ih, add_div]

theorem sum_map_exp_pos (z : List ℝ) (hz : z ≠ []) : 0 < (z.map Real.exp).sum := by
  cases z with
  | nil => exact absurd rfl hz
  | cons a t =>
    simp only [List.map_cons, List.sum_cons]
    have h1 : 0 < Real.exp a := Real.exp_pos a
    have h2 : 0 ≤ (t.map Real.exp).sum :=
      List.sum_nonneg (fun x hx => by
        obtain ⟨y, _, rfl⟩ := List.mem_map.mp hx
        exact (Real.exp_pos y).le)
    linarith

theorem softmax_nonneg (z : Vec) : ∀ w ∈ softmax z, 0 ≤ w := by
  intro w hw
  obtain ⟨a, _, rfl⟩ := List.mem_map.mp hw
  apply div_nonneg (Real.exp_pos a).le
  exact List.sum_nonneg (fun x hx => by
    obtain ⟨y, _, rfl⟩ := List.mem_map.mp hx
    exact (Real.exp_pos y).le)

theorem softmax_sum_one (z : Vec) (hz : z ≠ []) : (softmax z).sum = 1 := by
  unfold softmax
  rw [sum_map_div_right]
  exact div_self (ne_of_gt (sum_map_exp_pos z hz))

theorem attention_length (M : Model) (ic tc : Nat)
    (hW2 : M.attnW2.length = M.num_category) (hB2 : M.attnB2.length = M.num_category) :
    (M.attention ic tc).length = M.num_category := by
  unfold Model.attention softmax linearLayer addV matVec
  simp [List.length_zipWith, hW2, hB2]

/-! ### Claims C3 and C4 -/

/-- Claim C3: `_get_embedding` multiplies the encoder embedding
elementwise by the subspace mask, which is the attention-weighted sum of
the `num_category` learned per-category mask vectors; the attention
weights come from a softmax over a two-layer ReLU MLP on the
concatenated one-hot categories, so they are nonnegative and sum to 1. -/
theorem subspace_attention (M : Model) (img ic tc : Nat)
    (hmask : M.mask.length = M.num_category)
    (hrows : ∀ row ∈ M.mask, row.length = M.embedding_dim)
    (hW2 : M.attnW2.length = M.num_category)
    (hB2 : M.attnB2.length = M.num_category)
    (hnc : 0 < M.num_category) :
    M.getEmbedding img ic tc =
      mulV (M.img_encoder img) (weightedMaskSum (M.attention ic tc) M.mask M.embedding_dim) ∧
    (M.attention ic tc).length = M.num_category ∧
    (∀ w ∈ M.attention ic tc, 0 ≤ w) ∧
    (M.attention ic tc).sum = 1 := by
  refine ⟨?_, attention_length M ic tc hW2 hB2, softmax_nonneg _, ?_⟩
  · unfold Model.getEmbedding Model.subspaceMask
    rw [matVec_transpose M.mask (M.attention ic tc) M.embedding_dim hrows]
  · unfold Model.attention
    apply softmax_sum_one
    intro hzempty
    have hlen := congrArg List.length hzempty
    simp [linearLayer, addV, matVec, List.length_zipWith, hW2, hB2] at hlen
    omega

/-- A minimal concrete model: one category, one embedding dimension,
encoder `n ↦ [n]`, subspace mask 1, all attention weights zero. -/
def M1 : Model := ⟨1, 1, fun n => [(n : ℝ)], [[1]], [[0, 0], [0, 0]], [0, 0], [[0, 0]], [0]⟩

/-- Witness for C3 at the concrete model `M1`. -/
theorem subspace_attention_witness :
    M1.getEmbedding 5 0 0 =
      mulV (M1.img_encoder 5) (weightedMaskSum (M1.attention 0 0) M1.mask M1.embedding_dim) ∧
    (M1.attention 0 0).length = M1.num_category ∧
    (∀ w ∈ M1.attention 0 0, 0 ≤ w) ∧
    (M1.attention 0 0).sum = 1 :=
  subspace_attention M1 5 0 0 rfl (by simp [M1]) rfl rfl (by decide)

/-- The nested constant target-category tensor: category `i` for every
item position of the batch. -/
def constTargets (p : Inputs) (i : Nat) : List (List Nat) :=
  p.input_mask.map (fun row => row.map (fun _ => i))

/-- Claim C4: slice `i` of the `img_embed` stack returned by `forward`
with `target_category=None` equals the `img_embed` that `forward` would
return for the constant target category `i` at every item. -/
theorem forward_none_stacks_per_category (M : Model) (p : Inputs) (i : Nat)
    (hi : i < M.num_category) :
    (M.forwardAll p).get? i = some (M.forwardT p (constTargets p i)) := by
  have h1 : (M.forwardAll p).get? i = some (embedInputs M p i) := by
    unfold Model.forwardAll
    rw [List.get?_eq_getElem?, List.getElem?_map, List.getElem?_range hi]
    rfl
  rw [h1]
  congr 1
  unfold embedInputs Model.forwardT
  apply List.map_congr_left
  intro b hb
  have hb' : b < p.input_mask.length := List.mem_range.mp hb
  have htc : (constTargets p i).getD b [] = (p.input_mask.getD b []).map (fun _ => i) := by
    unfold constTargets
    exact getD_map_lt _ _ _ _ [] hb'
  rw [htc]
  unfold embedOutfit embedOutfitT
  apply List.map_congr_left
  intro j hj
  have hj' : j < (p.input_mask.getD b []).length := List.mem_range.mp hj
  have hgt : ((p.input_mask.getD b []).map (fun _ => i)).getD j 0 = i :=
    getD_map_lt _ _ _ _ true hj'
  rw [hgt]

/-- A one-outfit, one-item concrete batch side. -/
def inputs1 : Inputs := ⟨[[3]], [[0]], [[false]]⟩

/-- Witness for C4 at `M1` and a concrete input. -/
theorem forward_none_stacks_per_category_witness :
    (M1.forwardAll inputs1).get? 0 = some (M1.forwardT inputs1 (constTargets inputs1 0)) :=
  forward_none_stacks_per_category M1 inputs1 0 (by decide)

/-! ### Access lemmas for the batched model -/

theorem getD_mem {α : Type} (l : List α) (i : Nat) (d : α) (h : i < l.length) :
    l.getD i d ∈ l := by
  rw [List.getD_eq_getElem l d h]
  exact List.getElem_mem h

theorem cnt_le_length (mask : List Bool) : cntUnmasked mask ≤ mask.length :=
  List.count_le_length false mask

/-- Padding occurs only after all unmasked positions (how the dataloader
pads variable-length outfits). -/
def trailingB : List Bool → Bool
  | [] => true
  | false :: t => trailingB t
  | true :: t => t.all (fun x => x)

theorem trailing_unmasked (mask : List Bool) (h : trailingB mask = true) :
    ∀ i < cntUnmasked mask, mask.getD i true = false := by
  induction mask with
  | nil => intro i hi; simp [cntUnmasked] at hi
  | cons b t ih =>
    intro i hi
    cases b with
    | false =>
      cases i with
      | zero => rfl
      | succ n =>
        have ht : trailingB t = true := h
        have hn : n < cntUnmasked t := by
          simp only [cntUnmasked, List.count_cons] at hi
          simpa using Nat.lt_of_succ_lt_succ (by simpa using hi)
        exact ih ht n hn
    | true =>
      exfalso
      have hall : ∀ x ∈ t, x = true := by
        intro x hx
        have := List.all_eq_true.mp h x hx
        simpa using this
      have hzero : cntUnmasked (true :: t) = 0 := by
        simp only [cntUnmasked, List.count_cons]
        have : List.count false t = 0 := by
          rw [List.count_eq_zero]
          intro hmem
          exact Bool.false_ne_true (hall false hmem)
        simp [this]
      omega

theorem getElem?_eq_some_getD {α : Type} (l : List α) (i : Nat) (d : α) (h : i < l.length) :
    l[i]? = some (l.getD i d) := by
  rw [List.getD_eq_getElem l d h]
  exact List.getElem?_eq_getElem h

theorem forwardAll_getElem? (M : Model) (p : Inputs) (c : Nat) (hc : c < M.num_category) :
    (M.forwardAll p)[c]? = some (embedInputs M p c) := by
  unfold Model.forwardAll
  rw [List.getElem?_map, List.getElem?_range hc]
  rfl

theorem embedInputs_getElem? (M : Model) (p : Inputs) (tc bi : Nat)
    (h : bi < p.input_mask.length) :
    (embedInputs M p tc)[bi]? =
      some (embedOutfit M (p.img.getD bi []) (p.category.getD bi []) (p.input_mask.getD bi []) tc) := by
  unfold embedInputs
  rw [List.getElem?_map, List.getElem?_range h]
  rfl

theorem embedOutfit_getElem?_unmasked (M : Model) (imgs cats : List Nat) (mask : List Bool)
    (tc j : Nat) (hj : j < mask.length) (hm : mask.getD j true = false) :
    (embedOutfit M imgs cats mask tc)[j]? =
      some (M.getEmbedding (imgs.getD j 0) (cats.getD j 0) tc) := by
  unfold embedOutfit
  rw [List.getElem?_map, List.getElem?_range hj]
  have hm2 : mask[j]?.getD true = false := by
    rwa [List.getD_eq_getD_get?, List.get?_eq_getElem?] at hm
  simp [hm2]

theorem get3_forwardAll (M : Model) (p : Inputs) (c bi j : Nat)
    (hc : c < M.num_category) (hbi : bi < p.input_mask.length)
    (hj : j < (p.input_mask.getD bi []).length)
    (hm : (p.input_mask.getD bi []).getD j true = false) :
    get3 (M.forwardAll p) c bi j =
      some (M.getEmbedding ((p.img.getD bi []).getD j 0) ((p.category.getD bi []).getD j 0) c) := by
  unfold get3
  rw [List.get?_eq_getElem?, forwardAll_getElem? M p c hc]
  simp only [Option.some_bind]
  rw [List.get?_eq_getElem?, embedInputs_getElem? M p c bi hbi]
  simp only [Option.some_bind]
  rw [List.get?_eq_getElem?, embedOutfit_getElem?_unmasked M _ _ _ c j hj hm]

theorem get2_eq (xs : List (List Nat)) (i j : Nat) (hi : i < xs.length)
    (hj : j < (xs.getD i []).length) :
    get2 xs i j = some ((xs.getD i []).getD j 0) := by
  unfold get2
  rw [List.get?_eq_getElem?, getElem?_eq_some_getD xs i [] hi]
  simp only [Option.some_bind]
  rw [List.get?_eq_getElem?, getElem?_eq_some_getD (xs.getD i []) j 0 hj]

/-! ### Claim C2: the triplet training loss -/

/-- Well-formedness of one batch side, as the dataloader produces it:
outer lengths agree with the batch size `B`, category rows are as long as
mask rows, padding is trailing, and category values are valid indices. -/
def wfInputs (nc B : Nat) (p : Inputs) : Prop :=
  p.input_mask.length = B ∧ p.category.length = B ∧
  ∀ bi < B,
    (p.category.getD bi []).length = (p.input_mask.getD bi []).length ∧
    trailingB (p.input_mask.getD bi []) = true ∧
    ∀ c ∈ p.category.getD bi [], c < nc

/-- Well-formedness of a triplet batch: all three sides share the batch
size of the anchors, every outfit has a positive item at position 0, and
at least one `(b_i, a_i, n_i)` triple exists (otherwise `torch.stack`
raises on the empty loss list). -/
def wfTriplet (M : Model) (b : TripletBatch) : Prop :=
  wfInputs M.num_category b.anchors.input_mask.length b.anchors ∧
  wfInputs M.num_category b.anchors.input_mask.length b.positives ∧
  wfInputs M.num_category b.anchors.input_mask.length b.negatives ∧
  (∀ bi < b.anchors.input_mask.length,
    0 < cntUnmasked (b.positives.input_mask.getD bi [])) ∧
  (∃ bi < b.anchors.input_mask.length,
    0 < cntUnmasked (b.anchors.input_mask.getD bi []) ∧
    0 < cntUnmasked (b.negatives.input_mask.getD bi []))

/-- The claim's triplet loss for the pair `(a_i, n_i)` of outfit `b_i`:
anchor embedded under the positive's category (the positive sits at
position 0), positive and negative embedded under the anchor's
category. -/
def specLossAt (M : Model) (b : TripletBatch) (bi ai ni : Nat) : ℝ :=
  tripletMarginLoss
    (M.getEmbedding ((b.anchors.img.getD bi []).getD ai 0)
      ((b.anchors.category.getD bi []).getD ai 0)
      ((b.positives.category.getD bi []).getD 0 0))
    (M.getEmbedding ((b.positives.img.getD bi []).getD 0 0)
      ((b.positives.category.getD bi []).getD 0 0)
      ((b.anchors.category.getD bi []).getD ai 0))
    (M.getEmbedding ((b.negatives.img.getD bi []).getD ni 0)
      ((b.negatives.category.getD bi []).getD ni 0)
      ((b.anchors.category.getD bi []).getD ai 0))

/-- All triplet losses of one batch, over every outfit and every pair of
unmasked anchor/negative positions. -/
def specBatchLossList (M : Model) (b : TripletBatch) : List ℝ :=
  ((List.range b.anchors.input_mask.length).map (fun bi =>
    ((List.range (cntUnmasked (b.anchors.input_mask.getD bi []))).map (fun ai =>
      (List.range (cntUnmasked (b.negatives.input_mask.getD bi []))).map (fun ni =>
        specLossAt M b bi ai ni))).flatten)).flatten

/-- The claim's per-batch loss: the mean over all pairs. -/
def specBatchLoss (M : Model) (b : TripletBatch) : ℝ := meanR (specBatchLossList M b)

theorem iterBatchLosses_eq_spec (M : Model) (b : TripletBatch) (hwf : wfTriplet M b) :
    iterBatchLosses M b = some (specBatchLossList M b) := by
  obtain ⟨ha, hp, hn, hpos, -⟩ := hwf
  obtain ⟨haL, haC, haRow⟩ := ha
  obtain ⟨hpL, hpC, hpRow⟩ := hp
  obtain ⟨hnL, hnC, hnRow⟩ := hn
  have hloss : ∀ bi < b.anchors.input_mask.length,
      ∀ ai < cntUnmasked (b.anchors.input_mask.getD bi []),
      ∀ ni < cntUnmasked (b.negatives.input_mask.getD bi []),
      ((get2 b.anchors.category bi ai).bind (fun ancCat =>
        (get2 b.positives.category bi 0).bind (fun posCat =>
        (get3 (M.forwardAll b.anchors) posCat bi ai).bind (fun ancE =>
        (get3 (M.forwardAll b.positives) ancCat bi 0).bind (fun posE =>
        (get3 (M.forwardAll b.negatives) ancCat bi ni).bind (fun negE =>
        some (tripletMarginLoss ancE posE negE))))))) = some (specLossAt M b bi ai ni) := by
    intro bi hbiB ai haiA ni hniN
    obtain ⟨haRowL, haTrail, haBound⟩ := haRow bi hbiB
    obtain ⟨hpRowL, hpTrail, hpBound⟩ := hpRow bi hbiB
    obtain ⟨hnRowL, hnTrail, hnBound⟩ := hnRow bi hbiB
    have haiLen : ai < (b.anchors.input_mask.getD bi []).length :=
      lt_of_lt_of_le haiA (cnt_le_length _)
    have hniLen : ni < (b.negatives.input_mask.getD bi []).length :=
      lt_of_lt_of_le hniN (cnt_le_length _)
    have hposCnt := hpos bi hbiB
    have hposLen : 0 < (b.positives.input_mask.getD bi []).length :=
      lt_of_lt_of_le hposCnt (cnt_le_length _)
    have hancCat : (b.anchors.category.getD bi []).getD ai 0 < M.num_category :=
      haBound _ (getD_mem _ ai 0 (by omega))
    have hposCat : (b.positives.category.getD bi []).getD 0 0 < M.num_category :=
      hpBound _ (getD_mem _ 0 0 (by omega))
    rw [get2_eq b.anchors.category bi ai (by omega) (by omega)]
    simp only [Option.some_bind]
    rw [get2_eq b.positives.category bi 0 (by omega) (by omega)]
    simp only [Option.some_bind]
    rw [get3_forwardAll M b.anchors _ bi ai hposCat hbiB haiLen
      (trailing_unmasked _ haTrail ai haiA)]
    simp only [Option.some_bind]
    rw [get3_forwardAll M b.positives _ bi 0 hancCat (by omega) hposLen
      (trailing_unmasked _ hpTrail 0 hposCnt)]
    simp only [Option.some_bind]
    rw [get3_forwardAll M b.negatives _ bi ni hancCat (by omega) hniLen
      (trailing_unmasked _ hnTrail ni hniN)]
    simp only [Option.some_bind]
    rfl
  have hmid : ∀ bi < b.anchors.input_mask.length,
      (optList (List.range (cntUnmasked (b.anchors.input_mask.getD bi []))) (fun ai =>
        optList (List.range (cntUnmasked (b.negatives.input_mask.getD bi []))) (fun ni =>
          (get2 b.anchors.category bi ai).bind (fun ancCat =>
          (get2 b.positives.category bi 0).bind (fun posCat =>
          (get3 (M.forwardAll b.anchors) posCat bi ai).bind (fun ancE =>
          (get3 (M.forwardAll b.positives) ancCat bi 0).bind (fun posE =>
          (get3 (M.forwardAll b.negatives) ancCat bi ni).bind (fun negE =>
          some (tripletMarginLoss ancE posE negE))))))))) =
      some ((List.range (cntUnmasked (b.anchors.input_mask.getD bi []))).map (fun ai =>
        (List.range (cntUnmasked (b.negatives.input_mask.getD bi []))).map (fun ni =>
          specLossAt M b bi ai ni))) := by
    intro bi hbiB
    apply optList_eq_map
    intro ai hai
    exact optList_eq_map _ _ _
      (fun ni hni => hloss bi hbiB ai (List.mem_range.mp hai) ni (List.mem_range.mp hni))
  have hG : ∀ bi ∈ List.range b.anchors.input_mask.length,
      ((b.anchors.input_mask.get? bi).bind (fun aMask =>
        (b.negatives.input_mask.get? bi).bind (fun nMask =>
        optList (List.range (cntUnmasked aMask)) (fun ai =>
          optList (List.range (cntUnmasked nMask)) (fun ni =>
            (get2 b.anchors.category bi ai).bind (fun ancCat =>
            (get2 b.positives.category bi 0).bind (fun posCat =>
            (get3 (M.forwardAll b.anchors) posCat bi ai).bind (fun ancE =>
            (get3 (M.forwardAll b.positives) ancCat bi 0).bind (fun posE =>
            (get3 (M.forwardAll b.negatives) ancCat bi ni).bind (fun negE =>
            some (tripletMarginLoss ancE posE negE))))))))))) =
      some ((List.range (cntUnmasked (b.anchors.input_mask.getD bi []))).map (fun ai =>
        (List.range (cntUnmasked (b.negatives.input_mask.getD bi []))).map (fun ni =>
          specLossAt M b bi ai ni))) := by
    intro bi hbi
    have hbiB := List.mem_range.mp hbi
    rw [get?_eq_some_getD b.anchors.input_mask bi [] hbiB,
      get?_eq_some_getD b.negatives.input_mask bi [] (by omega)]
    simp only [Option.some_bind]
    exact hmid bi hbiB
  have hmain := optList_eq_map _ _ _ hG
  unfold iterBatchLosses
  rw [hmain]
  simp only [Option.map_some']
  unfold specBatchLossList
  congr 1
  rw [List.map_map]
  rfl

theorem specBatchLossList_ne_nil (M : Model) (b : TripletBatch)
    (hex : ∃ bi < b.anchors.input_mask.length,
      0 < cntUnmasked (b.anchors.input_mask.getD bi []) ∧
      0 < cntUnmasked (b.negatives.input_mask.getD bi [])) :
    specBatchLossList M b ≠ [] := by
  obtain ⟨bi, hbi, hA, hN⟩ := hex
  intro hnil
  unfold specBatchLossList at hnil
  rw [List.flatten_eq_nil_iff] at hnil
  have hmem := List.mem_map_of_mem
    (fun bi => ((List.range (cntUnmasked (b.anchors.input_mask.getD bi []))).map (fun ai =>
      (List.range (cntUnmasked (b.negatives.input_mask.getD bi []))).map (fun ni =>
        specLossAt M b bi ai ni))).flatten)
    (List.mem_range.mpr hbi)
  have h1 := hnil _ hmem
  rw [List.flatten_eq_nil_iff] at h1
  have hmem2 := List.mem_map_of_mem
    (fun ai => (List.range (cntUnmasked (b.negatives.input_mask.getD bi []))).map (fun ni =>
      specLossAt M b bi ai ni))
    (List.mem_range.mpr hA)
  have h2 := h1 _ hmem2
  rw [List.map_eq_nil_iff, List.range_eq_nil] at h2
  omega

theorem iterBatchLoss_eq_spec (M : Model) (b : TripletBatch) (hwf : wfTriplet M b) :
    iterBatchLoss M b = some (specBatchLoss M b) := by
  unfold iterBatchLoss
  rw [iterBatchLosses_eq_spec M b hwf]
  simp only [Option.some_bind]
  rw [if_neg]
  · rfl
  · intro hemp
    exact specBatchLossList_ne_nil M b hwf.2.2.2.2 (List.isEmpty_iff.mp hemp)

/-- Claim C2: for every batch, `CSANet.iteration` accumulates the mean of
`TripletMarginLoss(margin=0.3)` over all pairs of unmasked anchor and
negative positions of every outfit, with the positive at position 0, the
anchor embedded under the positive's category and the positive/negative
embedded under the anchor's category; the method returns the sum of
per-batch losses divided by the number of batches. -/
theorem iteration_mean_triplet (M : Model) (dl : List TripletBatch)
    (hdl : dl ≠ []) (hwf : ∀ b ∈ dl, wfTriplet M b) :
    iteration M dl = some ((dl.map (specBatchLoss M)).sum / (dl.length : ℝ)) := by
  unfold iteration
  rw [optList_eq_map dl (iterBatchLoss M) (specBatchLoss M)
    (fun b hb => iterBatchLoss_eq_spec M b (hwf b hb))]
  simp only [Option.some_bind]
  rw [if_neg]
  intro hemp
  exact hdl (List.isEmpty_iff.mp hemp)

/-- A concrete one-outfit triplet batch. -/
def tb1 : TripletBatch :=
  ⟨⟨[[10]], [[0]], [[false]]⟩, ⟨[[20]], [[0]], [[false]]⟩, ⟨[[30]], [[0]], [[false]]⟩⟩

/-- Witness for C2 at `M1` and a concrete one-batch dataloader. -/
theorem iteration_mean_triplet_witness :
    iteration M1 [tb1] = some (([tb1].map (specBatchLoss M1)).sum / (([tb1] : List TripletBatch).length : ℝ)) :=
  iteration_mean_triplet M1 [tb1] (by decide)
    (by unfold wfTriplet wfInputs; decide)

/-! ### Claim C1: the evaluation accuracy and the `len(batch)` bug -/

theorem m1_embed (n : Nat) : M1.getEmbedding n 0 0 = [(n : ℝ)] := by
  norm_num [M1, Model.getEmbedding, Model.subspaceMask, Model.attention, softmax, linearLayer,
    matVec, matTranspose, addV, mulV, reluV, dotV, oneHot, List.range_succ, List.range_zero,
    Real.exp_zero]

/-- A concrete FITB batch of three questions for `M1`: each question is
the single item `0`; the candidate lists are `[0, 1]`, `[0, 1]` and
`[1, 0]`, so the correct answers are at indices 0, 0 and 1. -/
def fb3 : FitbBatch :=
  ⟨⟨[[0], [0], [0]], [[0], [0], [0]], [[false], [false], [false]]⟩,
   ⟨[[0, 1], [0, 1], [1, 0]], [[0, 0], [0, 0], [0, 0]], [[false, false], [false, false], [false, false]]⟩⟩

theorem fb3_ans0 : evalAnswer M1 fb3 0 = some 0 := by
  norm_num [evalAnswer, fb3, get2, get3, Model.forwardAll, embedInputs, embedOutfit, optList,
    cntUnmasked, pairwiseDistance, argminIdx, listMin, List.range_succ,
    List.range_zero, List.count_cons, M1, Model.getEmbedding, Model.subspaceMask, Model.attention,
    softmax, linearLayer, matVec, matTranspose, addV, mulV, reluV, dotV, oneHot, Real.exp_zero,
    Real.sqrt_zero, Real.sqrt_one]
  exact fun h => absurd h (by simp)

theorem fb3_ans1 : evalAnswer M1 fb3 1 = some 0 := by
  norm_num [evalAnswer, fb3, get2, get3, Model.forwardAll, embedInputs, embedOutfit, optList,
    cntUnmasked, pairwiseDistance, argminIdx, listMin, List.range_succ,
    List.range_zero, List.count_cons, M1, Model.getEmbedding, Model.subspaceMask, Model.attention,
    softmax, linearLayer, matVec, matTranspose, addV, mulV, reluV, dotV, oneHot, Real.exp_zero,
    Real.sqrt_zero, Real.sqrt_one]
  exact fun h => absurd h (by simp)

theorem fb3_ans2 : evalAnswer M1 fb3 2 = some 1 := by
  norm_num [evalAnswer, fb3, get2, get3, Model.forwardAll, embedInputs, embedOutfit, optList,
    cntUnmasked, pairwiseDistance, argminIdx, listMin, List.range_succ,
    List.range_zero, List.count_cons, M1, Model.getEmbedding, Model.subspaceMask, Model.attention,
    softmax, linearLayer, matVec, matTranspose, addV, mulV, reluV, dotV, oneHot, Real.exp_zero,
    Real.sqrt_zero, Real.sqrt_one]
  exact fun h => absurd h (by simp)

/-- Claim C1 (the code deviates): `CSANet.evaluation` loops
`for batch_i in range(len(batch))` where `batch` is the dict
`{'questions', 'candidates'}`, so only the first 2 outfits of every batch
are scored.  On a 3-question batch whose third question is answered
wrongly, the code returns accuracy 1 while the claim's accuracy over all
questions is 2/3. -/
theorem evaluation_len_batch_bug :
    evaluation M1 [fb3] = some 1 ∧ specEvaluation M1 [fb3] = some (2 / 3) := by
  constructor
  · norm_num [evaluation, evaluationAnswers, batchPyLen, optList, List.range_succ,
      List.range_zero, fb3_ans0, fb3_ans1, List.countP_cons, List.countP_nil]
  · norm_num [specEvaluation, specEvaluationAnswers,
      (show fb3.questions.input_mask.length = 3 from rfl), optList, List.range_succ,
      List.range_zero, fb3_ans0, fb3_ans1, fb3_ans2, List.countP_cons, List.countP_nil]

/-! ### Claim C5: masked-position noninterference -/

theorem lt_length_of_getD_false (l : List Bool) (i : Nat) (h : l.getD i true = false) :
    i < l.length := by
  by_contra hge
  rw [List.getD_eq_default _ _ (by omega)] at h
  simp at h

/-- Two batch sides of the same shape and mask that agree on every
unmasked item (images and categories); they may differ arbitrarily at
masked (padding) positions. -/
def inputsAgree (p q : Inputs) : Prop :=
  p.input_mask = q.input_mask ∧
  p.img.length = q.img.length ∧
  p.category.length = q.category.length ∧
  ∀ b < p.input_mask.length,
    (p.img.getD b []).length = (q.img.getD b []).length ∧
    (p.category.getD b []).length = (q.category.getD b []).length ∧
    ∀ j < (p.input_mask.getD b []).length,
      (p.input_mask.getD b []).getD j true = false →
      (p.img.getD b []).getD j 0 = (q.img.getD b []).getD j 0 ∧
      (p.category.getD b []).getD j 0 = (q.category.getD b []).getD j 0

theorem embedInputs_agree (M : Model) (p q : Inputs) (hagree : inputsAgree p q) (tc : Nat) :
    embedInputs M p tc = embedInputs M q tc := by
  obtain ⟨hmask, himgL, hcatL, hrow⟩ := hagree
  unfold embedInputs
  rw [← hmask]
  apply List.map_congr_left
  intro b hb
  have hbB := List.mem_range.mp hb
  obtain ⟨hrowImg, hrowCat, hdata⟩ := hrow b hbB
  unfold embedOutfit
  apply List.map_congr_left
  intro j hj
  have hjL := List.mem_range.mp hj
  by_cases hm : (p.input_mask.getD b []).getD j true = true
  · simp only [List.getD_eq_getElem?_getD] at hm ⊢
    simp [hm]
  · obtain ⟨hdImg, hdCat⟩ := hdata j hjL (by simpa using hm)
    simp only [List.getD_eq_getElem?_getD] at hm hdImg hdCat ⊢
    simp [hm, hdImg, hdCat]

theorem forwardAll_agree (M : Model) (p q : Inputs) (hagree : inputsAgree p q) :
    M.forwardAll p = M.forwardAll q := by
  unfold Model.forwardAll
  apply List.map_congr_left
  intro i _
  exact embedInputs_agree M p q hagree i

theorem get2_category_agree (p q : Inputs) (hagree : inputsAgree p q) (bi j : Nat)
    (hbi : bi < p.input_mask.length)
    (hj : j < (p.input_mask.getD bi []).length)
    (hunm : (p.input_mask.getD bi []).getD j true = false) :
    get2 p.category bi j = get2 q.category bi j := by
  obtain ⟨hmask, himgL, hcatL, hrow⟩ := hagree
  obtain ⟨hrowImg, hrowCat, hdata⟩ := hrow bi hbi
  obtain ⟨hdImg, hdCat⟩ := hdata j hj hunm
  unfold get2
  by_cases hbc : bi < p.category.length
  · rw [get?_eq_some_getD p.category bi [] hbc, get?_eq_some_getD q.category bi [] (by omega)]
    simp only [Option.some_bind]
    by_cases hjc : j < (p.category.getD bi []).length
    · rw [get?_eq_some_getD _ j 0 hjc, get?_eq_some_getD _ j 0 (by omega), hdCat]
    · rw [List.get?_eq_none.mpr (by omega), List.get?_eq_none.mpr (by omega)]
  · rw [List.get?_eq_none.mpr (by omega), List.get?_eq_none.mpr (by omega)]

theorem evalAnswer_agree (M : Model) (bA bB : FitbBatch)
    (hq : inputsAgree bA.questions bB.questions)
    (hc : inputsAgree bA.candidates bB.candidates)
    (hqt : ∀ b < bA.questions.input_mask.length,
      trailingB (bA.questions.input_mask.getD b []) = true)
    (hct : ∀ b < bA.candidates.input_mask.length,
      trailingB (bA.candidates.input_mask.getD b []) = true)
    (bi : Nat) :
    evalAnswer M bA bi = evalAnswer M bB bi := by
  have hfq : M.forwardAll bB.questions = M.forwardAll bA.questions :=
    (forwardAll_agree M _ _ hq).symm
  have hfc : M.forwardAll bB.candidates = M.forwardAll bA.candidates :=
    (forwardAll_agree M _ _ hc).symm
  unfold evalAnswer
  rw [← hc.1, ← hq.1, hfq, hfc]
  by_cases hbic : bi < bA.candidates.input_mask.length
  case neg =>
    rw [List.get?_eq_none.mpr (by omega)]
    rfl
  case pos =>
    rw [get?_eq_some_getD bA.candidates.input_mask bi [] hbic]
    simp only [Option.some_bind]
    by_cases hbiq : bi < bA.questions.input_mask.length
    case neg =>
      rw [List.get?_eq_none.mpr (by omega)]
      rfl
    case pos =>
      rw [get?_eq_some_getD bA.questions.input_mask bi [] hbiq]
      simp only [Option.some_bind]
      congr 1
      apply optList_congr
      intro ci hci
      have hciC := List.mem_range.mp hci
      congr 1
      apply optList_congr
      intro qi hqi
      have hqiQ := List.mem_range.mp hqi
      rw [get2_category_agree bA.questions bB.questions hq bi qi hbiq
          (lt_of_lt_of_le hqiQ (cnt_le_length _))
          (trailing_unmasked _ (hqt bi hbiq) qi hqiQ),
        get2_category_agree bA.candidates bB.candidates hc bi ci hbic
          (lt_of_lt_of_le hciC (cnt_le_length _))
          (trailing_unmasked _ (hct bi hbic) ci hciC)]

theorem iterLosses_agree (M : Model) (tA tB : TripletBatch)
    (ha : inputsAgree tA.anchors tB.anchors)
    (hp : inputsAgree tA.positives tB.positives)
    (hn : inputsAgree tA.negatives tB.negatives)
    (hat : ∀ b < tA.anchors.input_mask.length,
      trailingB (tA.anchors.input_mask.getD b []) = true)
    (hp0 : ∀ b < tA.anchors.input_mask.length,
      (tA.positives.input_mask.getD b []).getD 0 true = false) :
    iterBatchLosses M tA = iterBatchLosses M tB := by
  have hfa : M.forwardAll tB.anchors = M.forwardAll tA.anchors :=
    (forwardAll_agree M _ _ ha).symm
  have hfp : M.forwardAll tB.positives = M.forwardAll tA.positives :=
    (forwardAll_agree M _ _ hp).symm
  have hfn : M.forwardAll tB.negatives = M.forwardAll tA.negatives :=
    (forwardAll_agree M _ _ hn).symm
  unfold iterBatchLosses
  rw [← ha.1, ← hn.1, hfa, hfp, hfn]
  congr 1
  apply optList_congr
  intro bi hbi
  have hbiB := List.mem_range.mp hbi
  rw [get?_eq_some_getD tA.anchors.input_mask bi [] hbiB]
  simp only [Option.some_bind]
  by_cases hbin : bi < tA.negatives.input_mask.length
  case neg =>
    rw [List.get?_eq_none.mpr (by omega)]
    rfl
  case pos =>
    rw [get?_eq_some_getD tA.negatives.input_mask bi [] hbin]
    simp only [Option.some_bind]
    have hpf := hp0 bi hbiB
    have hbp : bi < tA.positives.input_mask.length := by
      by_contra hge
      rw [List.getD_eq_default tA.positives.input_mask []
        (show tA.positives.input_mask.length ≤ bi by omega)] at hpf
      simp at hpf
    have h0len : 0 < (tA.positives.input_mask.getD bi []).length :=
      lt_length_of_getD_false _ 0 hpf
    apply optList_congr
    intro ai hai
    have haiA := List.mem_range.mp hai
    apply optList_congr
    intro ni hni
    rw [get2_category_agree tA.anchors tB.anchors ha bi ai hbiB
        (lt_of_lt_of_le haiA (cnt_le_length _))
        (trailing_unmasked _ (hat bi hbiB) ai haiA),
      get2_category_agree tA.positives tB.positives hp bi 0 hbp h0len hpf]

/-- Claim C5 (amended): masked noninterference holds provided the padding
of anchors, questions and candidates is trailing (unmasked positions come
first) and every positives outfit has its first position unmasked: two
triplet batches / FITB batches that agree outside masked positions yield
the same per-batch triplet loss and the same fill-in-the-blank
predictions. -/
theorem masked_noninterference (M : Model) (tA tB : TripletBatch) (bA bB : FitbBatch)
    (ha : inputsAgree tA.anchors tB.anchors)
    (hp : inputsAgree tA.positives tB.positives)
    (hn : inputsAgree tA.negatives tB.negatives)
    (hq : inputsAgree bA.questions bB.questions)
    (hc : inputsAgree bA.candidates bB.candidates)
    (hat : ∀ b < tA.anchors.input_mask.length,
      trailingB (tA.anchors.input_mask.getD b []) = true)
    (hp0 : ∀ b < tA.anchors.input_mask.length,
      (tA.positives.input_mask.getD b []).getD 0 true = false)
    (hqt : ∀ b < bA.questions.input_mask.length,
      trailingB (bA.questions.input_mask.getD b []) = true)
    (hct : ∀ b < bA.candidates.input_mask.length,
      trailingB (bA.candidates.input_mask.getD b []) = true) :
    iterBatchLoss M tA = iterBatchLoss M tB ∧
    evaluationAnswers M bA = evaluationAnswers M bB := by
  constructor
  · unfold iterBatchLoss
    rw [iterLosses_agree M tA tB ha hp hn hat hp0]
  · unfold evaluationAnswers
    apply optList_congr
    intro bi _
    exact evalAnswer_agree M bA bB hq hc hqt hct bi

/-- Concrete agreeing pairs for the C5 witness: the two triplet batches
differ only in a trailing masked position of the positives, the two FITB
batches only in a trailing masked position of the questions. -/
def tA1 : TripletBatch :=
  ⟨⟨[[1]], [[0]], [[false]]⟩, ⟨[[2, 5]], [[0, 0]], [[false, true]]⟩, ⟨[[3]], [[0]], [[false]]⟩⟩

def tB1 : TripletBatch :=
  ⟨⟨[[1]], [[0]], [[false]]⟩, ⟨[[2, 6]], [[0, 0]], [[false, true]]⟩, ⟨[[3]], [[0]], [[false]]⟩⟩

def fbA1 : FitbBatch :=
  ⟨⟨[[0, 7]], [[0, 0]], [[false, true]]⟩, ⟨[[1, 2]], [[0, 0]], [[false, false]]⟩⟩

def fbB1 : FitbBatch :=
  ⟨⟨[[0, 8]], [[0, 0]], [[false, true]]⟩, ⟨[[1, 2]], [[0, 0]], [[false, false]]⟩⟩

/-- Witness for the amended C5 at concrete agreeing batches. -/
theorem masked_noninterference_witness :
    iterBatchLoss M1 tA1 = iterBatchLoss M1 tB1 ∧
    evaluationAnswers M1 fbA1 = evaluationAnswers M1 fbB1 :=
  masked_noninterference M1 tA1 tB1 fbA1 fbB1
    (by unfold inputsAgree tA1 tB1; decide)
    (by unfold inputsAgree tA1 tB1; decide)
    (by unfold inputsAgree tA1 tB1; decide)
    (by unfold inputsAgree fbA1 fbB1; decide)
    (by unfold inputsAgree fbA1 fbB1; decide)
    (by unfold tA1 trailingB; decide)
    (by unfold tA1; decide)
    (by unfold fbA1 trailingB; decide)
    (by unfold fbA1 trailingB; decide)

theorem pairwiseDistance_single (a b : ℝ) : pairwiseDistance [a] [b] = |a - b| := by
  unfold pairwiseDistance
  simp [Real.sqrt_sq_eq_abs]

/-- A two-category model whose attention genuinely depends on the target
category: softmax weights `[1/2, 1/2]` for target 0 and
`[e/(e+1), 1/(e+1)]` for target 1. -/
def Mx : Model :=
  ⟨1, 2, fun n => [(n : ℝ)], [[1], [0]],
   [[1, 0, 0, 0], [0, 1, 0, 0], [0, 0, 1, 0], [0, 0, 0, 1]], [0, 0, 0, 0],
   [[0, 0, 0, 1], [0, 0, 0, 0]], [0, 0]⟩

/-- Two triplet batches identical except for the category of the masked
(padding) position 0 of the positives; the padding here is non-trailing,
which is what the code's loops cannot handle. -/
def tA2 : TripletBatch :=
  ⟨⟨[[1]], [[0]], [[false]]⟩, ⟨[[9, 7]], [[0, 0]], [[true, false]]⟩, ⟨[[2]], [[0]], [[false]]⟩⟩

def tB2 : TripletBatch :=
  ⟨⟨[[1]], [[0]], [[false]]⟩, ⟨[[9, 7]], [[1, 0]], [[true, false]]⟩, ⟨[[2]], [[0]], [[false]]⟩⟩

set_option maxHeartbeats 1000000 in
theorem mx_embed0 (n : Nat) : Mx.getEmbedding n 0 0 = [(n : ℝ) * (1 / 2)] := by
  norm_num [Mx, Model.getEmbedding, Model.subspaceMask, Model.attention, softmax, linearLayer,
    matVec, matTranspose, addV, mulV, reluV, dotV, oneHot, List.range_succ, List.range_zero,
    Real.exp_zero]

set_option maxHeartbeats 1000000 in
theorem mx_embed1 (n : Nat) : Mx.getEmbedding n 0 1 =
    [(n : ℝ) * (Real.exp 1 / (Real.exp 1 + 1))] := by
  norm_num [Mx, Model.getEmbedding, Model.subspaceMask, Model.attention, softmax, linearLayer,
    matVec, matTranspose, addV, mulV, reluV, dotV, oneHot, List.range_succ, List.range_zero,
    Real.exp_zero]

set_option maxHeartbeats 1600000 in
theorem iterA2_val : iterBatchLoss Mx tA2 = some (3 / 10) := by
  norm_num [iterBatchLoss, iterBatchLosses, tA2, optList, get2, get3, Model.forwardAll,
    embedInputs, embedOutfit, cntUnmasked, mx_embed0, mx_embed1, zeroV,
    (show Mx.embedding_dim = 1 from rfl), (show Mx.num_category = 2 from rfl),
    List.range_succ, List.range_zero, pairwiseDistance_single, tripletMarginLoss, meanR, max_def]

set_option maxHeartbeats 1600000 in
theorem iterB2_val : iterBatchLoss Mx tB2 =
    some (2 * (Real.exp 1 / (Real.exp 1 + 1)) - 7 / 10) := by
  have he1 : (1 : ℝ) < Real.exp 1 := Real.one_lt_exp_iff.mpr one_pos
  have hepos : (0 : ℝ) < Real.exp 1 + 1 := by positivity
  have hs_pos : 0 < Real.exp 1 / (Real.exp 1 + 1) := by positivity
  have hs_lt : Real.exp 1 / (Real.exp 1 + 1) < 1 := by
    rw [div_lt_one hepos]
    linarith
  have hs_gt : 1 / 2 < Real.exp 1 / (Real.exp 1 + 1) := by
    rw [lt_div_iff hepos]
    linarith
  have habs0 : |Real.exp 1 / (Real.exp 1 + 1) - (0 : ℝ)| = Real.exp 1 / (Real.exp 1 + 1) := by
    rw [sub_zero, abs_of_pos hs_pos]
  have habs1 : |Real.exp 1 / (Real.exp 1 + 1) - 1| = 1 - Real.exp 1 / (Real.exp 1 + 1) := by
    rw [abs_of_neg (by linarith), neg_sub]
  have hmax : max (Real.exp 1 / (Real.exp 1 + 1) -
      (1 - Real.exp 1 / (Real.exp 1 + 1)) + 3 / 10) 0 =
      2 * (Real.exp 1 / (Real.exp 1 + 1)) - 7 / 10 := by
    rw [max_eq_left (by linarith)]
    ring
  norm_num [iterBatchLoss, iterBatchLosses, tB2, optList, get2, get3, Model.forwardAll,
    embedInputs, embedOutfit, cntUnmasked, mx_embed0, mx_embed1, zeroV,
    (show Mx.embedding_dim = 1 from rfl), (show Mx.num_category = 2 from rfl),
    List.range_succ, List.range_zero, pairwiseDistance_single, tripletMarginLoss, meanR,
    habs0, habs1, abs_of_pos hs_pos, hmax]

/-- Counterexample to C5 as stated: the two triplet batches `tA2`/`tB2`
are identical except for the category stored at a masked (padding)
position — yet `iteration`'s per-batch loss differs, because the loop
reads `positives['category'][b_i][0]` even when position 0 is masked. -/
theorem masked_noninterference_cex :
    tA2.anchors = tB2.anchors ∧
    tA2.negatives = tB2.negatives ∧
    inputsAgree tA2.positives tB2.positives ∧
    iterBatchLoss Mx tA2 ≠ iterBatchLoss Mx tB2 := by
  refine ⟨rfl, rfl, by unfold inputsAgree tA2 tB2; decide, ?_⟩
  rw [iterA2_val, iterB2_val]
  intro heq
  rw [Option.some_inj] at heq
  have he1 : (1 : ℝ) < Real.exp 1 := Real.one_lt_exp_iff.mpr one_pos
  have hepos : (0 : ℝ) < Real.exp 1 + 1 := by positivity
  have hs_gt : 1 / 2 < Real.exp 1 / (Real.exp 1 + 1) := by
    rw [lt_div_iff₀ hepos]
    linarith
  linarith
